import Mathlib

/-!
Verification of the ofw-client repository's authentication bridge, token
cache and message API facade (`src/ofw_messages_client.py`,
`src/ofw_browser_client.py`), as a shallow embedding in Lean 4.

The cache file and the browser's local storage hold JSON produced and
consumed by Python's `json` module (`json.dump(..., indent=2)`,
`json.load`, `json.loads`), so the embedding starts with a model of the
fragment of that module the code exercises:
  - serialization with `ensure_ascii=True` (the default used by the code):
    ASCII characters other than `"` and `\` in the 0x20..0x7e range pass
    through, the short escapes `\" \\ \b \f \n \r \t` are used where they
    exist, every other character becomes `\uXXXX` (astral characters
    become a surrogate pair);
  - parsing of null / true / false / integers / strings / arrays / objects
    in strict mode (unescaped control characters inside strings are
    rejected).  Two deliberate restrictions, neither reachable from any
    input arising in the claims: fractional/exponent number forms are not
    modelled (the cache record and the storage values in the claims hold
    no such numbers), and `\uXXXX` escapes denoting lone surrogates are
    rejected, since a Lean `Char` cannot carry a lone surrogate and the
    serializer never emits one.
-/

namespace OFW

/-- A JSON value, as Python's `json` module materializes one (numbers
restricted to integers, see the module comment). Object fields keep
their textual order; Python dict semantics (later duplicate key wins)
are recovered by `dictGet`. -/
inductive Json where
  | null : Json
  | bool (b : Bool) : Json
  | int (n : Int) : Json
  | str (s : String) : Json
  | arr (items : List Json) : Json
  | obj (fields : List (String × Json)) : Json

/-- Python `dict.get`: the value of the last binding of `key`, if any
(later occurrences of a duplicate key overwrite earlier ones when
`json` builds the dict). -/
def dictGet (fields : List (String × Json)) (key : String) : Option Json :=
  match fields with
  | [] => none
  | (k, v) :: rest =>
    match dictGet rest key with
    | some v' => some v'
    | none => if k = key then some v else none

/-- Python truthiness (`if token:`) on a JSON value: `None`, `False`,
`0`, `""`, `[]` and `{}` are falsy, everything else truthy. -/
def pythonTruthy : Json → Bool
  | .null => false
  | .bool b => b
  | .int n => n != 0
  | .str s => s != ""
  | .arr items => !items.isEmpty
  | .obj fields => !fields.isEmpty

/-! ### Serialization (Python `json.dump`, `ensure_ascii=True`) -/

/-- Lower-case hex digit for `n < 16`. -/
def hexDigitChar (n : Nat) : Char :=
  if n < 10 then Char.ofNat (48 + n) else Char.ofNat (87 + n)

/-- The four hex digits of `n % 0x10000`, most significant first. -/
def toHex4 (n : Nat) : List Char :=
  [hexDigitChar (n / 4096 % 16), hexDigitChar (n / 256 % 16),
   hexDigitChar (n / 16 % 16), hexDigitChar (n % 16)]

/-- Escape of one character, exactly as Python's `ensure_ascii` encoder
emits it: short escapes for `" \ \b \f \n \r \t`, printable ASCII
(0x20..0x7e) verbatim, `\uXXXX` otherwise, astral characters as a
surrogate pair. -/
def escChar (c : Char) : List Char :=
  if c = '"' then ['\\', '"']
  else if c = '\\' then ['\\', '\\']
  else if c = '\n' then ['\\', 'n']
  else if c = '\t' then ['\\', 't']
  else if c = '\r' then ['\\', 'r']
  else if c = Char.ofNat 8 then ['\\', 'b']
  else if c = Char.ofNat 12 then ['\\', 'f']
  else if c.toNat < 0x20 ∨ 0x7e < c.toNat then
    if c.toNat < 0x10000 then '\\' :: 'u' :: toHex4 c.toNat
    else
      let v := c.toNat - 0x10000
      ('\\' :: 'u' :: toHex4 (0xd800 + v / 0x400)) ++
        ('\\' :: 'u' :: toHex4 (0xdc00 + v % 0x400))
  else [c]

/-- Escape of a character list. -/
def escList (cs : List Char) : List Char := cs.flatMap escChar

/-- A JSON string literal for `s`: quote, escaped body, quote. -/
def quoteJson (s : String) : String := ⟨'"' :: (escList s.data ++ ['"'])⟩

/-- The exact text `json.dump({'token': t}, f, indent=2)` writes, i.e.
`\x7b\n  "token": "<escaped t>"\n\x7d`. -/
def serializeCacheRecord (t : String) : String :=
  "\x7b\n  \"token\": " ++ quoteJson t ++ "\n\x7d"

/-! ### Parsing (Python `json.load` / `json.loads`, strict mode) -/

/-- Value of a hex digit character, if it is one. -/
def hexVal (c : Char) : Option Nat :=
  if '0' ≤ c ∧ c ≤ '9' then some (c.toNat - 48)
  else if 'a' ≤ c ∧ c ≤ 'f' then some (c.toNat - 87)
  else if 'A' ≤ c ∧ c ≤ 'F' then some (c.toNat - 55)
  else none

/-- Consume exactly four hex digits. -/
def parseHex4 : List Char → Option (Nat × List Char)
  | a :: b :: c :: d :: rest =>
    match hexVal a, hexVal b, hexVal c, hexVal d with
    | some x, some y, some z, some w => some (((x * 16 + y) * 16 + z) * 16 + w, rest)
    | _, _, _, _ => none
  | _ => none

/-- Decoded character for a short escape letter. -/
def unescChar (e : Char) : Option Char :=
  if e = '"' then some '"'
  else if e = '\\' then some '\\'
  else if e = '/' then some '/'
  else if e = 'b' then some (Char.ofNat 8)
  else if e = 'f' then some (Char.ofNat 12)
  else if e = 'n' then some '\n'
  else if e = 'r' then some (Char.ofNat 13)
  else if e = 't' then some '\t'
  else none

/-- Outcome of decoding one character position of a JSON string body:
the closing quote, one decoded character, or a decode error. -/
inductive DecodeStep where
  | done (rest : List Char) : DecodeStep
  | char (c : Char) (rest : List Char) : DecodeStep
  | err : DecodeStep

/-- Decode one character of a JSON string body, after the opening quote:
strict about raw control characters, decoding escapes and recombining a
surrogate pair into one character (lone surrogates are rejected, see
the module comment). -/
def decodeOne : List Char → DecodeStep
  | [] => .err
  | c :: rest =>
    if c = '"' then .done rest
    else if c = '\\' then
      match rest with
      | [] => .err
      | e :: rest2 =>
        if e = 'u' then
          match parseHex4 rest2 with
          | none => .err
          | some (n, rest3) =>
            if 0xd800 ≤ n ∧ n ≤ 0xdbff then
              match rest3 with
              | b1 :: b2 :: rest4 =>
                if b1 = '\\' ∧ b2 = 'u' then
                  match parseHex4 rest4 with
                  | none => .err
                  | some (m, rest5) =>
                    if 0xdc00 ≤ m ∧ m ≤ 0xdfff then
                      .char (Char.ofNat (0x10000 + (n - 0xd800) * 0x400 + (m - 0xdc00))) rest5
                    else .err
                else .err
              | _ => .err
            else if 0xdc00 ≤ n ∧ n ≤ 0xdfff then .err
            else .char (Char.ofNat n) rest3
        else
          match unescChar e with
          | none => .err
          | some ch => .char ch rest2
    else if c.toNat < 0x20 then .err
    else .char c rest

/-- Body of a JSON string literal, after the opening quote: characters up
to the closing quote, decoded one at a time by `decodeOne`. The `fuel`
argument only serves termination; `fuel = length + 1` always
suffices. -/
def parseStringBody : Nat → List Char → Option (List Char × List Char)
  | 0, _ => none
  | fuel + 1, cs =>
    match decodeOne cs with
    | .done rest => some ([], rest)
    | .char ch rest => (parseStringBody fuel rest).map (fun p => (ch :: p.1, p.2))
    | .err => none

/-- A JSON string literal body with self-supplied fuel. -/
def parseString (cs : List Char) : Option (String × List Char) :=
  (parseStringBody (cs.length + 1) cs).map (fun p => (⟨p.1⟩, p.2))

/-- JSON whitespace skipping (space, tab, newline, carriage return). -/
def skipWs : List Char → List Char
  | [] => []
  | c :: rest =>
    if c = ' ' ∨ c = '\t' ∨ c = '\n' ∨ c = Char.ofNat 13 then skipWs rest
    else c :: rest

/-- Is `c` an ASCII decimal digit? -/
def isDigitChar (c : Char) : Bool := '0' ≤ c ∧ c ≤ '9'

/-- Accumulate a digit run into a natural number. -/
def digitsToNat (ds : List Char) : Nat :=
  ds.foldl (fun a c => a * 10 + (c.toNat - 48)) 0

/-- Unsigned integer literal: `0`, or a nonzero digit followed by digits
(leading zeros are rejected, as in the JSON grammar). -/
def parseUNat (cs : List Char) : Option (Nat × List Char) :=
  match cs with
  | [] => none
  | c :: rest =>
    if c = '0' then
      match rest with
      | c2 :: _ => if isDigitChar c2 then none else some (0, rest)
      | [] => some (0, [])
    else if isDigitChar c then
      let run := rest.takeWhile isDigitChar
      some (digitsToNat (c :: run), rest.dropWhile isDigitChar)
    else none

/-- Integer literal with optional leading minus. -/
def parseIntLit (cs : List Char) : Option (Int × List Char) :=
  match cs with
  | '-' :: rest => (parseUNat rest).map (fun p => (-(p.1 : Int), p.2))
  | _ => (parseUNat cs).map (fun p => ((p.1 : Int), p.2))

mutual

/-- One JSON value (leading whitespace allowed). `fuel` only serves
termination of the nested recursion; `length + 1` always suffices. -/
def parseValue : Nat → List Char → Option (Json × List Char)
  | 0, _ => none
  | fuel + 1, cs =>
    match skipWs cs with
    | [] => none
    | c :: rest =>
      if c = '"' then (parseString rest).map (fun p => (Json.str p.1, p.2))
      else if c = '\x7b' then
        match skipWs rest with
        | '\x7d' :: r => some (Json.obj [], r)
        | _ => parseObjectMembers fuel rest []
      else if c = '[' then
        match skipWs rest with
        | ']' :: r => some (Json.arr [], r)
        | _ => parseArrayItems fuel rest []
      else if c = 'n' then
        match rest with
        | 'u' :: 'l' :: 'l' :: r => some (Json.null, r)
        | _ => none
      else if c = 't' then
        match rest with
        | 'r' :: 'u' :: 'e' :: r => some (Json.bool true, r)
        | _ => none
      else if c = 'f' then
        match rest with
        | 'a' :: 'l' :: 's' :: 'e' :: r => some (Json.bool false, r)
        | _ => none
      else if c = '-' ∨ isDigitChar c then
        (parseIntLit (c :: rest)).map (fun p => (Json.int p.1, p.2))
      else none

/-- Members of an object after its opening brace (at least one member):
`"key": value` pairs separated by commas, closed by a brace. -/
def parseObjectMembers : Nat → List Char → List (String × Json) → Option (Json × List Char)
  | 0, _, _ => none
  | fuel + 1, cs, acc =>
    match skipWs cs with
    | '"' :: rest =>
      match parseString rest with
      | none => none
      | some (key, r1) =>
        match skipWs r1 with
        | ':' :: r2 =>
          match parseValue fuel r2 with
          | none => none
          | some (v, r3) =>
            match skipWs r3 with
            | ',' :: r4 => parseObjectMembers fuel r4 (acc ++ [(key, v)])
            | '\x7d' :: r4 => some (Json.obj (acc ++ [(key, v)]), r4)
            | _ => none
        | _ => none
    | _ => none

/-- Items of an array after its opening bracket (at least one item). -/
def parseArrayItems : Nat → List Char → List Json → Option (Json × List Char)
  | 0, _, _ => none
  | fuel + 1, cs, acc =>
    match parseValue fuel cs with
    | none => none
    | some (v, r1) =>
      match skipWs r1 with
      | ',' :: r2 => parseArrayItems fuel r2 (acc ++ [v])
      | ']' :: r2 => some (Json.arr (acc ++ [v]), r2)
      | _ => none

end

/-- Python `json.loads`: one value, surrounded by optional whitespace,
nothing else; any parse error (Python: a raised `JSONDecodeError`) is
`none`. -/
def jsonParse (s : String) : Option Json :=
  match parseValue (s.data.length + 1) s.data with
  | none => none
  | some (v, rest) => if skipWs rest = [] then some v else none

/-! ### Token cache (`OFWMessagesClient._save_token_to_cache`,
`_load_token_from_cache`, `__init__`) -/

/-- State of the cache file as `_load_token_from_cache` can find it:
missing, present but unreadable (`open` raises), or present with some
text content. -/
inductive FileState where
  | missing : FileState
  | unreadable : FileState
  | content (s : String) : FileState

/-- Constructor-visible state set up by `OFWMessagesClient.__init__`:
the resolved cache path (argument or the `debug/ofw_auth_token.json`
default) and the fact that `Path(...).parent.mkdir(parents=True,
exist_ok=True)` has run, so the cache directory exists. -/
structure MessagesClientInit where
  token_cache_file : String
  cache_dir_created : Bool

/-- `OFWMessagesClient.__init__`. -/
def clientInit (token_cache_file : Option String) : MessagesClientInit :=
  { token_cache_file := token_cache_file.getD "debug/ofw_auth_token.json",
    cache_dir_created := true }

/-- The sequence of file contents observable while
`_save_token_to_cache` runs: the old content, then — because the file
is opened with mode `w`, which truncates in place, and `json.dump`
writes into it incrementally — every prefix of the new serialized
record (the empty file is the state right after `open`), ending with
the full new record. There is no write-temp-then-rename step in the
source. -/
def save_token_observable_states (old : String) (t : String) : List String :=
  old :: (List.range ((serializeCacheRecord t).length + 1)).map
    (fun k => ⟨(serializeCacheRecord t).data.take k⟩)

/-- `OFWMessagesClient._save_token_to_cache`: the final content of the
cache file is exactly the serialized `{'token': token}` record. -/
def _save_token_to_cache (t : String) : FileState :=
  FileState.content (serializeCacheRecord t)

/-- `OFWMessagesClient._load_token_from_cache`: `None` when the file is
missing, cannot be read, holds text `json.load` rejects, or holds a
value without a truthy `token` entry (`.get` on a non-dict raises
`AttributeError`, which the `except` swallows); otherwise the value of
the `token` field. All exception paths return `None`. -/
def _load_token_from_cache : FileState → Option Json
  | .missing => none
  | .unreadable => none
  | .content s =>
    match jsonParse s with
    | none => none
    | some (Json.obj fields) =>
      match dictGet fields "token" with
      | some tok => if pythonTruthy tok then some tok else none
      | none => none
    | some _ => none

/-! ### Token probe (`OFWMessagesClient._test_token`) and
authentication state -/

/-- Outcome of the probe request `GET /pub/v1/messageFolders` issued by
`_test_token`: an HTTP status code, or a raised transport exception. -/
inductive ProbeOutcome where
  | status (code : Nat) : ProbeOutcome
  | exc : ProbeOutcome

/-- `OFWMessagesClient._test_token`: true on status 200, false on 401,
false on any other status, false when the request raises. The token
itself is never inspected — the function only looks at the probe
response, so no local expiry or structural check exists. -/
def _test_token : ProbeOutcome → Bool
  | .status code => if code = 200 then true else if code = 401 then false else false
  | .exc => false

/-- The authentication-relevant attributes of `OFWMessagesClient`. -/
structure ClientState where
  is_authenticated : Bool
  auth_token : Option String

/-- The environment `create_with_auto_auth` runs against: the cache
file it starts from, the probe response the server gives each bearer
token, whether `OFWBrowserClient.login` succeeds, and the token the
`localstorage.json` fetch yields (none when that fetch fails or has no
`auth` field). -/
structure AuthEnv where
  cache : FileState
  probe : String → ProbeOutcome
  browser_login_ok : Bool
  localstorage_token : Option String

/-- Externally visible actions of the authentication bridge, in
order. -/
inductive AuthEvent where
  | probe_token (token : String) : AuthEvent
  | browser_login : AuthEvent
  | save_token (token : String) : AuthEvent
deriving DecidableEq

/-- `OFWMessagesClient.authenticate_with_token`: set the token, probe
it; on probe failure clear the token again. Returns the success flag,
the emitted events and the client state. -/
def authenticate_with_token (env : AuthEnv) (t : String) :
    Bool × List AuthEvent × ClientState :=
  if _test_token (env.probe t) then
    (true, [.probe_token t], { is_authenticated := true, auth_token := some t })
  else
    (false, [.probe_token t], { is_authenticated := false, auth_token := none })

/-- `OFWMessagesClient.try_cached_token`: load the cached token and
authenticate with it; no cached (string) token means immediate
failure with no events. -/
def try_cached_token (env : AuthEnv) : Bool × List AuthEvent × ClientState :=
  match _load_token_from_cache env.cache with
  | some (Json.str t) => authenticate_with_token env t
  | _ => (false, [], { is_authenticated := false, auth_token := none })

/-- `create_with_auto_auth` (module-level function): cached token
first; if that fails, one browser login inside a `with` block, then
token extraction, cache save and authentication. Python exceptions
(`raise Exception(...)`) are modelled as `Except.error` with the
raised message. -/
def create_with_auto_auth (env : AuthEnv) :
    Except String ClientState × List AuthEvent :=
  match try_cached_token env with
  | (true, ev1, client1) => (.ok client1, ev1)
  | (false, ev1, _) =>
    let ev2 := ev1 ++ [.browser_login]
    if env.browser_login_ok then
      match env.localstorage_token with
      | none => (.error "Failed to authenticate with JWT token", ev2)
      | some tok =>
        let ev3 := ev2 ++ [.save_token tok]
        match authenticate_with_token env tok with
        | (true, ev4, client2) => (.ok client2, ev3 ++ ev4)
        | (false, ev4, _) => (.error "Failed to authenticate with JWT token", ev3 ++ ev4)
    else (.error "Browser login failed", ev2)

/-! ### Browser client (`OFWBrowserClient.login`, `logout`,
`__exit__`, `get_local_storage`) -/

/-- The resource-relevant attributes of `OFWBrowserClient`:
whether a Chrome driver process is open, and the authenticated flag. -/
structure BrowserState where
  driver_open : Bool
  is_authenticated : Bool

/-- The exit paths of `OFWBrowserClient.login`: the login form never
appears, an error-styled element reports a rejection, the polling loop
times out with neither marker, both success markers appear, or an
exception escapes a step (it is caught by the outer handler). -/
inductive LoginPath where
  | form_not_found : LoginPath
  | error_element (msg : String) : LoginPath
  | timeout : LoginPath
  | success : LoginPath
  | exception : LoginPath

/-- `OFWBrowserClient.login`: sets up the driver if absent, then takes
one of the exit paths. Every path returns with the driver still open —
no path calls `driver.quit()`; only `success` sets
`is_authenticated`. -/
def login (path : LoginPath) (s : BrowserState) : Bool × BrowserState :=
  let s1 := { s with driver_open := true }
  match path with
  | .form_not_found => (false, s1)
  | .error_element _ => (false, s1)
  | .timeout => (false, s1)
  | .success => (true, { s1 with is_authenticated := true })
  | .exception => (false, s1)

/-- `OFWBrowserClient.logout`, also invoked by the context manager's
`__exit__`: if a driver is open, quit it (the logout navigation may
raise; the `finally` still quits) and clear the flags. -/
def logout (s : BrowserState) : BrowserState :=
  if s.driver_open then { driver_open := false, is_authenticated := false } else s

/-! ### Local storage extraction (`OFWBrowserClient.get_local_storage`) -/

/-- Per-value cleaning step of `get_local_storage`: `json.loads` the
string value; if it parses, keep the parsed value (one level of JSON
decoding), otherwise keep the raw string. -/
def clean_storage_value (value : String) : Json :=
  match jsonParse value with
  | some parsed => parsed
  | none => Json.str value

/-- `OFWBrowserClient.get_local_storage` on the string-valued snapshot
read from the browser: each value cleaned by `clean_storage_value`,
keys unchanged. -/
def get_local_storage (storage : List (String × String)) : List (String × Json) :=
  storage.map (fun kv => (kv.1, clean_storage_value kv.2))

/-! ### API facade (`OFWMessagesClient.get_messages`,
`get_all_messages`) -/

/-- The query parameters `get_messages` sends to `GET /pub/v3/messages`. -/
structure MessageParams where
  folders : Int
  page : Int
  size : Int
  sort : String
  sortDirection : String

/-- The parameter dict built by `OFWMessagesClient.get_messages` (with
the folder id already resolved): the requested size is sent as
`min(size, 50)`. -/
def get_messages_params (folder_id page size : Int) (sort sort_direction : String) :
    MessageParams :=
  { folders := folder_id, page := page, size := min size 50,
    sort := sort, sortDirection := sort_direction }

/-- One page of the `/pub/v3/messages` response, as `get_all_messages`
consumes it: the `data` array and the metadata's `last` flag. -/
structure PageResponse where
  data : List Json
  last : Bool

/-- Python truthiness of the `max_pages` argument combined with the
limit test: `if max_pages and page > max_pages`. `None` and `0` are
falsy, so neither limits. -/
def page_limit_reached (max_pages : Option Int) (page : Int) : Bool :=
  match max_pages with
  | none => false
  | some m => if m = 0 then false else decide (page > m)

/-- The `while True` loop of `OFWMessagesClient.get_all_messages`,
started at `page`: check the limit, fetch the page, accumulate its
`data`, stop when the metadata marks the last page, else advance.
Returns the pages requested in order and the accumulated messages.
`fuel` only serves termination (the source loop runs until a last-page
flag or the limit); any `fuel ≥` the number of iterations gives the
loop's value. -/
def get_all_messages_loop (env : Int → PageResponse) (max_pages : Option Int) :
    Nat → Int → List Int × List Json
  | 0, _ => ([], [])
  | fuel + 1, page =>
    if page_limit_reached max_pages page then ([], [])
    else
      let resp := env page
      if resp.last then ([page], resp.data)
      else
        let rest := get_all_messages_loop env max_pages fuel (page + 1)
        (page :: rest.1, resp.data ++ rest.2)

/-- `OFWMessagesClient.get_all_messages`: the loop from page 1. -/
def get_all_messages (env : Int → PageResponse) (max_pages : Option Int) (fuel : Nat) :
    List Int × List Json :=
  get_all_messages_loop env max_pages fuel 1

/-- The consecutive pages `p, p+1, …, p+len-1`. -/
def pageRange (p : Int) (len : Nat) : List Int :=
  (List.range len).map (fun i : Nat => p + (i : Int))

/-- Concatenation of the `data` arrays of pages `p, …, p+len-1`, in
page order. -/
def pageData (env : Int → PageResponse) (p : Int) (len : Nat) : List Json :=
  ((List.range len).map (fun i : Nat => (env (p + (i : Int))).data)).flatten

/-- Concrete environment for exercising `create_with_auto_auth`: a
cache holding token `tokA` that the server rejects with 401, a working
browser login, and `tokB` in local storage, accepted with 200. -/
def c1Env : AuthEnv :=
  { cache := FileState.content (serializeCacheRecord "tokA"),
    probe := fun s => if s = "tokA" then .status 401 else .status 200,
    browser_login_ok := true,
    localstorage_token := some "tokB" }

/-- Concrete three-page folder: pages 1 and 2 not last, page 3 last. -/
def c7Env : Int → PageResponse := fun k =>
  if k = 1 then { data := [Json.int 11], last := false }
  else if k = 2 then { data := [Json.int 22], last := false }
  else if k = 3 then { data := [Json.int 33], last := true }
  else { data := [], last := false }

/-- Concrete folder whose first page is already the last. -/
def c10Env : Int → PageResponse := fun k =>
  if k = 1 then { data := [Json.int 7], last := true }
  else { data := [], last := false }

/-! ### Round-trip lemmas for the string escape -/

theorem hexVal_hexDigitChar (n : Nat) (h : n < 16) : hexVal (hexDigitChar n) = some n := by
  interval_cases n <;> decide

theorem parseHex4_toHex4 (n : Nat) (h : n < 0x10000) (rest : List Char) :
    parseHex4 (toHex4 n ++ rest) = some (n, rest) := by
  have h1 : n / 4096 % 16 < 16 := Nat.mod_lt _ (by norm_num)
  have h2 : n / 256 % 16 < 16 := Nat.mod_lt _ (by norm_num)
  have h3 : n / 16 % 16 < 16 := Nat.mod_lt _ (by norm_num)
  have h4 : n % 16 < 16 := Nat.mod_lt _ (by norm_num)
  simp only [toHex4, List.cons_append, List.nil_append, parseHex4,
    hexVal_hexDigitChar _ h1, hexVal_hexDigitChar _ h2,
    hexVal_hexDigitChar _ h3, hexVal_hexDigitChar _ h4]
  congr 1
  congr 1
  omega

theorem decodeOne_escChar (c : Char) (tail : List Char) :
    decodeOne (escChar c ++ tail) = .char c tail := by
  have hvalid : c.toNat < 0xd800 ∨ (0xdfff < c.toNat ∧ c.toNat < 0x110000) := c.valid
  by_cases h1 : c = '"'
  · subst h1; simp [escChar, decodeOne, unescChar]
  by_cases h2 : c = '\\'
  · subst h2; simp [escChar, decodeOne, unescChar]
  by_cases h3 : c = '\n'
  · subst h3; simp [escChar, decodeOne, unescChar]
  by_cases h4 : c = '\t'
  · subst h4; simp [escChar, decodeOne, unescChar]
  by_cases h5 : c = '\x0d'
  · subst h5; simp [escChar, decodeOne, unescChar]
  by_cases h6 : c = '\x08'
  · subst h6; simp [escChar, decodeOne, unescChar]
  by_cases h7 : c = '\x0c'
  · subst h7; simp [escChar, decodeOne, unescChar]
  by_cases h8 : c.toNat < 0x20 ∨ 0x7e < c.toNat
  · by_cases h9 : c.toNat < 0x10000
    · have hs1 : ¬(0xd800 ≤ c.toNat ∧ c.toNat ≤ 0xdbff) := by omega
      have hs2 : ¬(0xdc00 ≤ c.toNat ∧ c.toNat ≤ 0xdfff) := by omega
      simp only [escChar, if_neg h1, if_neg h2, if_neg h3, if_neg h4, if_neg h5, if_neg h6,
        if_neg h7, if_pos h8, if_pos h9, List.cons_append]
      simp only [decodeOne, reduceIte, parseHex4_toHex4 c.toNat h9 tail,
        if_neg hs1, if_neg hs2, Char.ofNat_toNat]
      rw [if_neg (show ¬ ('\\' : Char) = '"' from by decide)]
    · have hlt : c.toNat < 0x110000 := by omega
      have hhi : 0xd800 + (c.toNat - 0x10000) / 0x400 < 0x10000 := by omega
      have hlo : 0xdc00 + (c.toNat - 0x10000) % 0x400 < 0x10000 := by omega
      have hhir : 0xd800 ≤ 0xd800 + (c.toNat - 0x10000) / 0x400 ∧
          0xd800 + (c.toNat - 0x10000) / 0x400 ≤ 0xdbff := by omega
      have hlor : 0xdc00 ≤ 0xdc00 + (c.toNat - 0x10000) % 0x400 ∧
          0xdc00 + (c.toNat - 0x10000) % 0x400 ≤ 0xdfff := by omega
      have hcode : 0x10000 + (0xd800 + (c.toNat - 0x10000) / 0x400 - 0xd800) * 0x400 +
          (0xdc00 + (c.toNat - 0x10000) % 0x400 - 0xdc00) = c.toNat := by omega
      simp only [escChar, if_neg h1, if_neg h2, if_neg h3, if_neg h4, if_neg h5, if_neg h6,
        if_neg h7, if_pos h8, if_neg h9, List.cons_append, List.append_assoc]
      simp only [decodeOne, reduceIte,
        parseHex4_toHex4 _ hhi ('\\' :: 'u' :: (toHex4 (0xdc00 + (c.toNat - 0x10000) % 0x400) ++ tail)),
        if_pos hhir, parseHex4_toHex4 _ hlo tail, if_pos hlor, hcode]
      rw [if_neg (show ¬ ('\\' : Char) = '"' from by decide)]
      simp [Char.ofNat_toNat]
  · have h20 : ¬ c.toNat < 0x20 := by omega
    simp only [escChar, if_neg h1, if_neg h2, if_neg h3, if_neg h4, if_neg h5, if_neg h6,
      if_neg h7, if_neg h8, List.cons_append, List.nil_append]
    simp only [decodeOne, if_neg h1, if_neg h2, if_neg h20]

theorem parseStringBody_escList (s : List Char) :
    ∀ (fuel : Nat) (rest : List Char),
      parseStringBody (s.length + fuel + 1) (escList s ++ '"' :: rest) = some (s, rest) := by
  induction s with
  | nil =>
    intro fuel rest
    simp [escList, parseStringBody, decodeOne]
  | cons c s ih =>
    intro fuel rest
    have hlen : (c :: s).length + fuel + 1 = (s.length + fuel + 1) + 1 := by
      simp [List.length_cons]; omega
    have hesc : escList (c :: s) = escChar c ++ escList s := by
      simp [escList]
    rw [hlen, hesc, List.append_assoc]
    rw [show parseStringBody ((s.length + fuel + 1) + 1) (escChar c ++ (escList s ++ '"' :: rest)) =
          match decodeOne (escChar c ++ (escList s ++ '"' :: rest)) with
          | .done r => some ([], r)
          | .char ch r => (parseStringBody (s.length + fuel + 1) r).map (fun p => (ch :: p.1, p.2))
          | .err => none
        from rfl]
    rw [decodeOne_escChar c (escList s ++ '"' :: rest)]
    simp [ih fuel rest]

theorem escChar_length_pos (c : Char) : 1 ≤ (escChar c).length := by
  unfold escChar
  split_ifs <;> simp [toHex4]

theorem escList_length_ge (s : List Char) : s.length ≤ (escList s).length := by
  induction s with
  | nil => simp [escList]
  | cons c s ih =>
    have h := escChar_length_pos c
    simp only [escList, List.flatMap_cons, List.length_append, List.length_cons] at *
    omega

theorem parseString_escList (s rest : List Char) :
    parseString (escList s ++ '"' :: rest) = some (⟨s⟩, rest) := by
  have hge : s.length ≤ (escList s).length := escList_length_ge s
  have hlen : (escList s ++ '"' :: rest).length + 1 =
      s.length + ((escList s ++ '"' :: rest).length - s.length) + 1 := by
    simp only [List.length_append, List.length_cons]
    omega
  unfold parseString
  rw [hlen, parseStringBody_escList]
  rfl

theorem parseValue_string_lit (fuel : Nat) (s rest : List Char) :
    parseValue (fuel + 1) (' ' :: '"' :: (escList s ++ '"' :: rest)) = some (Json.str ⟨s⟩, rest) := by
  rw [show parseValue (fuel + 1) (' ' :: '"' :: (escList s ++ '"' :: rest)) =
        (parseString (escList s ++ '"' :: rest)).map (fun p => (Json.str p.1, p.2)) from rfl]
  rw [parseString_escList]
  rfl

theorem parseObjectMembers_token (fuel : Nat) (t : String) :
    parseObjectMembers (fuel + 2)
      ('\n' :: ' ' :: ' ' :: '"' :: 't' :: 'o' :: 'k' :: 'e' :: 'n' :: '"' :: ':' :: ' ' :: '"' ::
        (escList t.data ++ '"' :: '\n' :: '\x7d' :: [])) [] =
      some (Json.obj [("token", Json.str t)], []) := by
  have hkey : parseString ('t' :: 'o' :: 'k' :: 'e' :: 'n' :: '"' :: ':' :: ' ' :: '"' ::
      (escList t.data ++ '"' :: '\n' :: '\x7d' :: [])) =
      some ("token", ':' :: ' ' :: '"' :: (escList t.data ++ '"' :: '\n' :: '\x7d' :: [])) := rfl
  have hval : parseValue (fuel + 1) (' ' :: '"' :: (escList t.data ++ '"' :: '\n' :: '\x7d' :: [])) =
      some (Json.str t, '\n' :: '\x7d' :: []) := parseValue_string_lit fuel t.data _
  simp [parseObjectMembers, skipWs, hkey, hval]

theorem parseValue_serializeCacheRecord (t : String) (fuel : Nat) :
    parseValue (fuel + 3) (serializeCacheRecord t).data =
      some (Json.obj [("token", Json.str t)], []) := by
  have hdata : (serializeCacheRecord t).data =
      '\x7b' :: '\n' :: ' ' :: ' ' :: '"' :: 't' :: 'o' :: 'k' :: 'e' :: 'n' :: '"' :: ':' :: ' ' :: '"' ::
        (escList t.data ++ '"' :: '\n' :: '\x7d' :: []) := by
    rw [show (serializeCacheRecord t).data =
        '\x7b' :: '\n' :: ' ' :: ' ' :: '"' :: 't' :: 'o' :: 'k' :: 'e' :: 'n' :: '"' :: ':' :: ' ' :: '"' ::
          ((escList t.data ++ ['"']) ++ ('\n' :: '\x7d' :: [])) from rfl]
    simp [List.append_assoc]
  rw [hdata]
  rw [show parseValue (fuel + 3)
        ('\x7b' :: '\n' :: ' ' :: ' ' :: '"' :: 't' :: 'o' :: 'k' :: 'e' :: 'n' :: '"' :: ':' :: ' ' :: '"' ::
          (escList t.data ++ '"' :: '\n' :: '\x7d' :: [])) =
      parseObjectMembers (fuel + 2)
        ('\n' :: ' ' :: ' ' :: '"' :: 't' :: 'o' :: 'k' :: 'e' :: 'n' :: '"' :: ':' :: ' ' :: '"' ::
          (escList t.data ++ '"' :: '\n' :: '\x7d' :: [])) [] from rfl]
  exact parseObjectMembers_token fuel t

theorem jsonParse_serializeCacheRecord (t : String) :
    jsonParse (serializeCacheRecord t) = some (Json.obj [("token", Json.str t)]) := by
  have hlen : 2 ≤ (serializeCacheRecord t).data.length := by
    rw [show (serializeCacheRecord t).data =
        '\x7b' :: '\n' :: ' ' :: ' ' :: '"' :: 't' :: 'o' :: 'k' :: 'e' :: 'n' :: '"' :: ':' :: ' ' :: '"' ::
          ((escList t.data ++ ['"']) ++ ('\n' :: '\x7d' :: [])) from rfl]
    simp
  unfold jsonParse
  rw [show (serializeCacheRecord t).data.length + 1 =
      ((serializeCacheRecord t).data.length - 2) + 3 from by omega]
  rw [parseValue_serializeCacheRecord]
  rfl

/-! ### Pagination loop lemmas -/

theorem pageRange_succ (p : Int) (len : Nat) :
    pageRange p (len + 1) = p :: pageRange (p + 1) len := by
  unfold pageRange
  rw [List.range_succ_eq_map, List.map_cons, List.map_map]
  congr 1
  · simp
  · refine List.map_congr_left fun i _ => ?_
    simp only [Function.comp_apply, Nat.succ_eq_add_one]
    push_cast
    omega

theorem pageData_succ (env : Int → PageResponse) (p : Int) (len : Nat) :
    pageData env p (len + 1) = (env p).data ++ pageData env (p + 1) len := by
  unfold pageData
  rw [List.range_succ_eq_map, List.map_cons, List.map_map]
  rw [show ∀ (a : List Json) (l : List (List Json)), (a :: l).flatten = a ++ l.flatten from
    fun a l => rfl]
  congr 1
  · simp
  · congr 1
    refine List.map_congr_left fun i _ => ?_
    simp only [Function.comp_apply, Nat.succ_eq_add_one]
    rw [show p + ((i + 1 : Nat) : Int) = p + 1 + (i : Int) from by push_cast; omega]

theorem get_all_messages_loop_none_spec (env : Int → PageResponse) :
    ∀ (L fuel : Nat) (p : Int),
      (∀ k : Int, p ≤ k → k < p + L → (env k).last = false) →
      (env (p + L)).last = true → L < fuel →
      get_all_messages_loop env none fuel p = (pageRange p (L + 1), pageData env p (L + 1)) := by
  intro L
  induction L with
  | zero =>
    intro fuel p hnot hlast hfuel
    obtain ⟨f, rfl⟩ : ∃ f, fuel = f + 1 := ⟨fuel - 1, by omega⟩
    rw [show p + ((0 : Nat) : Int) = p from by push_cast; ring] at hlast
    have h1 : pageRange p 1 = [p] := by
      simp [pageRange, show List.range 1 = [0] from rfl]
    have h2 : pageData env p 1 = (env p).data := by
      simp [pageData, show List.range 1 = [0] from rfl]
    rw [show (0 : Nat) + 1 = 1 from rfl, h1, h2]
    simp [get_all_messages_loop, page_limit_reached, hlast]
  | succ L ih =>
    intro fuel p hnot hlast hfuel
    obtain ⟨f, rfl⟩ : ∃ f, fuel = f + 1 := ⟨fuel - 1, by omega⟩
    have hp : (env p).last = false := by
      refine hnot p le_rfl ?_
      have : (0 : Int) < ((L : Nat) : Int) + 1 := by positivity
      push_cast
      omega
    have hrec := ih f (p + 1)
      (fun k hk1 hk2 => hnot k (by omega) (by push_cast at hk2 ⊢; omega))
      (by rw [show p + 1 + ((L : Nat) : Int) = p + (((L + 1 : Nat)) : Int) from by push_cast; ring]
          exact hlast)
      (by omega)
    simp only [get_all_messages_loop, page_limit_reached, hp, Bool.false_eq_true, if_false, hrec]
    rw [pageRange_succ p (L + 1), pageData_succ env p (L + 1)]

theorem get_all_messages_loop_some_zero (env : Int → PageResponse) :
    ∀ (fuel : Nat) (p : Int),
      get_all_messages_loop env (some 0) fuel p = get_all_messages_loop env none fuel p := by
  intro fuel
  induction fuel with
  | zero => intro p; rfl
  | succ f ih =>
    intro p
    simp [get_all_messages_loop, page_limit_reached, ih]

theorem get_all_messages_loop_count_bound (env : Int → PageResponse) (m : Int) (hm : 0 < m) :
    ∀ (fuel : Nat) (p : Int),
      (((get_all_messages_loop env (some m) fuel p).1.length : Int)) ≤ max (m + 1 - p) 0 := by
  intro fuel
  induction fuel with
  | zero =>
    intro p
    simp only [get_all_messages_loop, List.length_nil, Nat.cast_zero]
    exact le_max_right _ _
  | succ f ih =>
    intro p
    by_cases hlim : page_limit_reached (some m) p = true
    · simp only [get_all_messages_loop, hlim, if_true, List.length_nil, Nat.cast_zero]
      exact le_max_right _ _
    · have hlim2 : page_limit_reached (some m) p = false := by
        simpa using hlim
      have hple : p ≤ m := by
        simp only [page_limit_reached] at hlim2
        by_cases hz : m = 0
        · omega
        · simp only [if_neg hz, decide_eq_false_iff_not] at hlim2
          omega
      by_cases hl : (env p).last
      · simp only [get_all_messages_loop, hlim2, Bool.false_eq_true, if_false, hl, if_true,
          List.length_singleton, Nat.cast_one]
        omega
      · have hl2 : (env p).last = false := by simpa using hl
        have hrec := ih (p + 1)
        simp only [get_all_messages_loop, hlim2, Bool.false_eq_true, if_false, hl2,
          List.length_cons]
        push_cast at hrec ⊢
        omega


/-! ### Claim theorems -/

/-- C2: `validate` (`_test_token`) returns true exactly when the probe
request's status is 200, and false whenever it is 401 (or anything
else, or an exception); the function consumes only the probe response,
never the token, so no local expiry or structural check on the token
influences the result. -/
theorem claim_C2_validity_gating :
    (∀ r : ProbeOutcome, _test_token r = true ↔ r = .status 200) ∧
      _test_token (.status 401) = false := by
  refine ⟨fun r => ?_, rfl⟩
  cases r with
  | status code =>
    by_cases h : code = 200
    · subst h; simp [_test_token]
    · by_cases h2 : code = 401 <;> simp [_test_token, h, h2]
  | exc => simp [_test_token]

/-- C9: the `size` query parameter `get_messages` sends is
`min(size, 50)`: a requested size above 50 is clamped to 50, one at
most 50 is sent unchanged. -/
theorem claim_C9_size_clamped (folder_id page s : Int) (sort sort_direction : String) :
    (get_messages_params folder_id page s sort sort_direction).size = min s 50 ∧
      (s ≤ 50 → (get_messages_params folder_id page s sort sort_direction).size = s) ∧
      (50 < s → (get_messages_params folder_id page s sort sort_direction).size = 50) := by
  refine ⟨rfl, fun h => ?_, fun h => ?_⟩ <;> simp [get_messages_params] <;> omega

theorem claim_C9_size_clamped_witness :
    (get_messages_params 1 1 60 "date" "desc").size = 50 ∧
      (get_messages_params 1 1 7 "date" "desc").size = 7 :=
  ⟨(claim_C9_size_clamped 1 1 60 "date" "desc").2.2 (by decide),
   (claim_C9_size_clamped 1 1 7 "date" "desc").2.1 (by decide)⟩

/-- C8: `get_local_storage` unwraps exactly one level of JSON encoding
per value: the JSON-encoded string value `"\"abc123\""` is extracted as
`abc123`, a doubly encoded value loses exactly one level, and a value
that `json.loads` rejects passes through unchanged. -/
theorem claim_C8_storage_unwrapping :
    get_local_storage [("auth", "\"abc123\"")] = [("auth", Json.str "abc123")] ∧
      get_local_storage [("auth", "\"\\\"abc123\\\"\"")] = [("auth", Json.str "\"abc123\"")] ∧
      (∀ k v, jsonParse v = none → get_local_storage [(k, v)] = [(k, Json.str v)]) := by
  refine ⟨rfl, rfl, fun k v h => ?_⟩
  simp [get_local_storage, clean_storage_value, h]

theorem claim_C8_storage_unwrapping_witness :
    jsonParse "abc123" = none ∧
      get_local_storage [("auth", "abc123")] = [("auth", Json.str "abc123")] :=
  ⟨rfl, claim_C8_storage_unwrapping.2.2 "auth" "abc123" rfl⟩

/-- C5: the cache round trip is the identity on every non-empty token:
`_save_token_to_cache t` then `_load_token_from_cache` yields exactly
the string `t` back. -/
theorem claim_C5_cache_round_trip (t : String) (h : t ≠ "") :
    _load_token_from_cache (_save_token_to_cache t) = some (Json.str t) := by
  simp only [_save_token_to_cache, _load_token_from_cache, jsonParse_serializeCacheRecord]
  simp [dictGet, pythonTruthy, h]

theorem claim_C5_cache_round_trip_witness :
    _load_token_from_cache (_save_token_to_cache "tok") = some (Json.str "tok") :=
  claim_C5_cache_round_trip "tok" (by decide)

/-- C6: `_load_token_from_cache` returns `none` for a missing file, an
unreadable file, content `json.loads` rejects, and a record without a
`token` field, and returns the token for a well-formed record holding
a non-empty token string; every exception path is mapped to `none`
inside the function (its codomain is `Option`), so nothing propagates
to the caller. -/
theorem claim_C6_load_error_containment :
    _load_token_from_cache FileState.missing = none ∧
      _load_token_from_cache FileState.unreadable = none ∧
      (∀ s, jsonParse s = none → _load_token_from_cache (FileState.content s) = none) ∧
      (∀ s fields, jsonParse s = some (Json.obj fields) → dictGet fields "token" = none →
        _load_token_from_cache (FileState.content s) = none) ∧
      (∀ s fields t, jsonParse s = some (Json.obj fields) →
        dictGet fields "token" = some (Json.str t) → t ≠ "" →
        _load_token_from_cache (FileState.content s) = some (Json.str t)) := by
  refine ⟨rfl, rfl, fun s h => ?_, fun s fields h1 h2 => ?_, fun s fields t h1 h2 h3 => ?_⟩
  · simp [_load_token_from_cache, h]
  · simp [_load_token_from_cache, h1, h2]
  · simp [_load_token_from_cache, h1, h2, pythonTruthy, h3]

theorem claim_C6_load_error_containment_witness :
    _load_token_from_cache (FileState.content "not json") = none ∧
      _load_token_from_cache (FileState.content "\x7b\"other\": \"x\"\x7d") = none ∧
      _load_token_from_cache (FileState.content "\x7b\"token\": \"a\"\x7d") = some (Json.str "a") :=
  ⟨claim_C6_load_error_containment.2.2.1 "not json" rfl,
   claim_C6_load_error_containment.2.2.2.1 "\x7b\"other\": \"x\"\x7d"
     [("other", Json.str "x")] rfl rfl,
   claim_C6_load_error_containment.2.2.2.2 "\x7b\"token\": \"a\"\x7d"
     [("token", Json.str "a")] "a" rfl rfl (by decide)⟩


/-- C4 fails on the code: `_save_token_to_cache` opens the cache file
with mode `w` (truncate in place) and writes into it directly — there
is no write-temp-then-rename step — so right after the `open` the
cache file is observably empty, a state that is neither the old record
nor the new one. Concrete input: old record for token `a`, new token
`b`. -/
theorem claim_C4_atomic_overwrite_counterexample :
    "" ∈ save_token_observable_states (serializeCacheRecord "a") "b" ∧
      "" ≠ serializeCacheRecord "a" ∧ "" ≠ serializeCacheRecord "b" := by
  refine ⟨?_, by decide, by decide⟩
  simp only [save_token_observable_states, List.mem_cons, List.mem_map]
  exact Or.inr ⟨0, List.mem_range.mpr (Nat.succ_pos _), rfl⟩

/-- C4 amended: `_save_token_to_cache` overwrites the cache file in
place by truncating and rewriting, so the intermediate observable
states are the prefixes of the new serialized record (the empty file
among them) rather than only the old or the new record; the final
state holds exactly the new serialized record, and the cache directory
is created (by the constructor, before any save) if absent. -/
theorem claim_C4_save_truncate_then_write (old t : String) :
    (save_token_observable_states old t).head? = some old ∧
      (save_token_observable_states old t).getLast? = some (serializeCacheRecord t) ∧
      (∀ s ∈ save_token_observable_states old t,
        s = old ∨ ∃ k, s = ⟨(serializeCacheRecord t).data.take k⟩) ∧
      (clientInit none).cache_dir_created = true := by
  refine ⟨rfl, ?_, ?_, rfl⟩
  · simp only [save_token_observable_states, List.range_succ, List.map_append, List.map_cons,
      List.map_nil]
    rw [← List.cons_append, List.getLast?_concat,
      show (serializeCacheRecord t).length = (serializeCacheRecord t).data.length from rfl,
      List.take_length]
  · intro s hs
    simp only [save_token_observable_states, List.mem_cons, List.mem_map] at hs
    rcases hs with h | ⟨k, _, hk⟩
    · exact Or.inl h
    · exact Or.inr ⟨k, hk.symm⟩

/-- C3 fails on the code: `login` never calls `driver.quit()`; on the
form-not-found exit path it returns `False` to its caller with the
driver still open (and the success path deliberately keeps it open for
cookie extraction). -/
theorem claim_C3_driver_release_counterexample :
    (login LoginPath.form_not_found ⟨false, false⟩).1 = false ∧
      (login LoginPath.form_not_found ⟨false, false⟩).2.driver_open = true :=
  ⟨rfl, rfl⟩

/-- C3 amended: the release happens at the context-manager boundary
rather than inside `login`: running `logout` — what `__exit__` does at
every exit of the `with OFWBrowserClient(...)` block that
`create_with_auto_auth` uses — after any exit path of `login` leaves
no driver open, so the browser process is not leaked once the `with`
block is exited. -/
theorem claim_C3_driver_released_at_context_exit (path : LoginPath) (s : BrowserState) :
    (logout (login path s).2).driver_open = false ∧
      (logout (login path s).2).is_authenticated = false := by
  cases path <;> simp [login, logout]

/-- C7: with no `max_pages` limit, `get_all_messages` on a folder whose
page `n` is the first page flagged last issues exactly the `n` page
requests `1, …, n` in increasing order and returns the concatenation
of the pages' `data` arrays in page order. -/
theorem claim_C7_pagination_termination (env : Int → PageResponse) (n fuel : Nat)
    (hn : 1 ≤ n)
    (hnot : ∀ k : Int, 1 ≤ k → k < (n : Int) → (env k).last = false)
    (hlast : (env (n : Int)).last = true)
    (hfuel : n ≤ fuel) :
    get_all_messages env none fuel = (pageRange 1 n, pageData env 1 n) ∧
      (pageRange 1 n).length = n := by
  constructor
  · have h := get_all_messages_loop_none_spec env (n - 1) fuel 1
      (fun k hk1 hk2 => hnot k hk1 (by omega))
      (by rw [show (1 : Int) + ((n - 1 : Nat) : Int) = ((n : Nat) : Int) from by omega]
          exact hlast)
      (by omega)
    unfold get_all_messages
    rw [h, show n - 1 + 1 = n from by omega]
  · simp [pageRange]

theorem claim_C7_pagination_termination_witness :
    get_all_messages c7Env none 3 = ([1, 2, 3], [Json.int 11, Json.int 22, Json.int 33]) ∧
      ([1, 2, 3] : List Int).length = 3 := by
  have h := claim_C7_pagination_termination c7Env 3 3 (by decide)
    (fun k hk1 hk2 => by
      have hk : k = 1 ∨ k = 2 := by omega
      rcases hk with hk | hk <;> subst hk <;> rfl)
    rfl (by decide)
  refine ⟨?_, rfl⟩
  rw [h.1]
  rfl

/-- C10: `max_pages=0` is falsy in the source's limit test
`if max_pages and page > max_pages`, so it imposes no limit —
`get_all_messages` behaves exactly as with `max_pages=None`, fetching
until a page is flagged last — while every positive limit `m` bounds
the number of page requests by `m`. -/
theorem claim_C10_max_pages_zero_no_limit (env : Int → PageResponse) :
    (∀ fuel, get_all_messages env (some 0) fuel = get_all_messages env none fuel) ∧
      (∀ m : Int, 0 < m → ∀ fuel,
        (((get_all_messages env (some m) fuel).1.length : Int)) ≤ m) := by
  constructor
  · intro fuel
    unfold get_all_messages
    exact get_all_messages_loop_some_zero env fuel 1
  · intro m hm fuel
    have h := get_all_messages_loop_count_bound env m hm fuel 1
    unfold get_all_messages
    have hmax : max (m + 1 - 1) 0 = m := by omega
    rw [hmax] at h
    exact h

theorem claim_C10_max_pages_zero_no_limit_witness :
    get_all_messages c10Env (some 0) 2 = get_all_messages c10Env none 2 ∧
      (((get_all_messages c10Env (some 1) 2).1.length : Int)) ≤ 1 :=
  ⟨(claim_C10_max_pages_zero_no_limit c10Env).1 2,
   (claim_C10_max_pages_zero_no_limit c10Env).2 1 (by decide) 2⟩


/-- C1: when the cache holds a token whose validation probe fails,
`create_with_auto_auth` invokes the browser login flow exactly once;
when that flow succeeds and a token is extracted, the new token is
passed to the cache save before the function returns, and the client
returned on success is authenticated with exactly that token. -/
theorem claim_C1_fallback_ordering (env : AuthEnv) (t : String)
    (hcache : _load_token_from_cache env.cache = some (Json.str t))
    (hfail : _test_token (env.probe t) = false) :
    ((create_with_auto_auth env).2.count AuthEvent.browser_login = 1) ∧
      (env.browser_login_ok = true → ∀ tok, env.localstorage_token = some tok →
        (create_with_auto_auth env).2 =
          [.probe_token t, .browser_login, .save_token tok, .probe_token tok] ∧
        (_test_token (env.probe tok) = true →
          (create_with_auto_auth env).1 = .ok ⟨true, some tok⟩)) := by
  have hstep : try_cached_token env =
      (false, [.probe_token t], { is_authenticated := false, auth_token := none }) := by
    simp [try_cached_token, hcache, authenticate_with_token, hfail]
  cases hb : env.browser_login_ok with
  | false =>
    refine ⟨?_, fun habs => by cases habs⟩
    simp [create_with_auto_auth, hstep, hb, List.count_cons]
  | true =>
    cases hls : env.localstorage_token with
    | none =>
      refine ⟨?_, fun _ tok habs => by cases habs⟩
      simp [create_with_auto_auth, hstep, hb, hls, List.count_cons]
    | some tok0 =>
      by_cases htk : _test_token (env.probe tok0) = true
      · have hres : create_with_auto_auth env =
            (.ok { is_authenticated := true, auth_token := some tok0 },
              [.probe_token t, .browser_login, .save_token tok0, .probe_token tok0]) := by
          simp [create_with_auto_auth, hstep, hb, hls, authenticate_with_token, htk]
        refine ⟨?_, fun _ tok htok => ?_⟩
        · simp [hres, List.count_cons]
        · injection htok with htok
          subst htok
          exact ⟨by rw [hres], fun _ => by rw [hres]⟩
      · have hres : create_with_auto_auth env =
            (.error "Failed to authenticate with JWT token",
              [.probe_token t, .browser_login, .save_token tok0, .probe_token tok0]) := by
          simp [create_with_auto_auth, hstep, hb, hls, authenticate_with_token, htk]
        refine ⟨?_, fun _ tok htok => ?_⟩
        · simp [hres, List.count_cons]
        · injection htok with htok
          subst htok
          exact ⟨by rw [hres], fun habs => absurd habs htk⟩

theorem claim_C1_fallback_ordering_witness :
    ((create_with_auto_auth c1Env).2.count AuthEvent.browser_login = 1) ∧
      (create_with_auto_auth c1Env).2 =
        [.probe_token "tokA", .browser_login, .save_token "tokB", .probe_token "tokB"] ∧
      (create_with_auto_auth c1Env).1 = .ok ⟨true, some "tokB"⟩ := by
  have h := claim_C1_fallback_ordering c1Env "tokA" rfl rfl
  exact ⟨h.1, (h.2 rfl "tokB" rfl).1, (h.2 rfl "tokB" rfl).2 rfl⟩

end OFW
